import Mathlib

/-!
Shallow embedding of the kilors terminal text viewer (src/main.rs) and
verification of the spec's claims about it.

Modelling conventions:
* Rust `String` / `Vec<char>` become `List Char`; iteration over `chars()`
  becomes structural recursion.
* The `u16` state fields become `Nat`.  The spec's data model treats these
  quantities as unbounded non-negative integers ("offsets never go
  negative"), and every subtraction performed by the code is guarded so
  that it is exact; additions that could wrap a `u16` only occur at sizes
  far beyond any terminal or document the claims consider.
* Panicking indexing `v[i]` is modelled by total lookup with a default
  (`List.getD` / `rowLen`); at every call site the surrounding guard or the
  proved invariant keeps the index in bounds, where the two coincide.
* Terminal I/O effects (clearing lines, flushing, hiding the cursor) are
  dropped; the pure content of each effect (which text is emitted, where
  the cursor is placed) is kept.
-/

/-- `const TAB_STOP_LENGTH: u16 = 8;` -/
def TAB_STOP_LENGTH : Nat := 8

/-- `struct EditorRow { text_raw: String, text_render: Vec<char> }` -/
structure EditorRow where
  text_raw : List Char
  text_render : List Char
deriving DecidableEq, Repr

/-- The loop body of `EditorRow::update`: scan the raw characters carrying
the mutable `index`, emitting rendered characters.  A tab pushes one space,
increments `index`, then pushes `TAB_STOP_LENGTH - index % TAB_STOP_LENGTH`
further spaces (the source's `for i in 0..tab_width` loop, which does not
touch `index`).  Any other character is pushed verbatim and `index`
is incremented. -/
def renderChars : List Char → Nat → List Char
  | [], _ => []
  | c :: rest, index =>
    if c = '\t' then
      let index' := index + 1
      let tab_width := TAB_STOP_LENGTH - index' % TAB_STOP_LENGTH
      ' ' :: (List.replicate tab_width ' ' ++ renderChars rest index')
    else
      c :: renderChars rest (index + 1)

/-- `EditorRow::update`: recompute `text_render` from `text_raw`,
starting with `index = 0`. -/
def updateRow (raw : List Char) : List Char :=
  renderChars raw 0

/-- `EditorRow::from`: build a row and render it (`from` is a Lean
keyword, hence the name). -/
def rowFrom (str : List Char) : EditorRow :=
  { text_raw := str, text_render := updateRow str }

/-- Claim C1 (code_bug evidence).  The claim's two concrete examples do
hold: raw `"a\t b"` renders to `a` + seven spaces + `b` (length 9) and a
lone tab renders to eight spaces.  But the universal statement fails: in
`"\t\t b"` the second tab is expanded from the raw index (2) instead of the
rendered column (8), so `b` lands at rendered column 15, which is not a
multiple of 8. -/
theorem c1_tab_stop_evidence :
    updateRow ['a', '\t', 'b'] = 'a' :: (List.replicate 7 ' ' ++ ['b']) ∧
    (updateRow ['a', '\t', 'b']).length = 9 ∧
    updateRow ['\t'] = List.replicate 8 ' ' ∧
    updateRow ['\t', '\t', 'b'] = List.replicate 15 ' ' ++ ['b'] ∧
    15 % TAB_STOP_LENGTH ≠ 0 := by
  decide

/-- Claim C5 (code_bug evidence).  After seven ordinary characters the raw
index of the tab is 8 ≡ 0 (mod 8), so the code pushes 1 + 8 spaces: the
tab consumes 9 rendered columns, exceeding the claimed maximum of
`W = 8`. -/
theorem c5_tab_width_evidence :
    (updateRow (List.replicate 7 'a' ++ ['\t'])).length = 16 ∧
    (updateRow (List.replicate 7 'a')).length = 7 ∧
    (updateRow (List.replicate 7 'a' ++ ['\t'])).length
      - (updateRow (List.replicate 7 'a')).length > TAB_STOP_LENGTH := by
  decide

theorem renderChars_length_le (l : List Char) :
    ∀ index : Nat, l.length ≤ (renderChars l index).length := by
  induction l with
  | nil => intro i; simp [renderChars]
  | cons c rest ih =>
    intro i
    by_cases h : c = '\t'
    · simp only [renderChars, h, if_pos, List.length_cons, List.length_append,
        List.length_replicate]
      have := ih (i + 1)
      omega
    · simp only [renderChars, h, if_neg, not_false_iff, List.length_cons]
      have := ih (i + 1)
      omega

theorem renderChars_no_tab (l : List Char) :
    ∀ index : Nat, '\t' ∉ renderChars l index := by
  induction l with
  | nil => intro i; simp [renderChars]
  | cons c rest ih =>
    intro i
    by_cases h : c = '\t'
    · simp only [renderChars, h, if_pos, List.mem_cons, List.mem_append,
        List.mem_replicate]
      push_neg
      refine ⟨by decide, ⟨fun _ => by decide, ih (i + 1)⟩⟩
    · simp only [renderChars, h, if_neg, not_false_iff, List.mem_cons]
      push_neg
      exact ⟨fun hc => h hc.symm, ih (i + 1)⟩

/-- Claim C8.  The row renderer (a total Lean function by construction)
produces a rendered sequence at least as long as the raw line, containing
no tab character. -/
theorem c8_render_total (raw : List Char) :
    raw.length ≤ (updateRow raw).length ∧ '\t' ∉ updateRow raw :=
  ⟨renderChars_length_le raw 0, renderChars_no_tab raw 0⟩

/-- `struct EditorState` (the `crossterm::Result` plumbing and terminal
handles live outside the struct in the source as well). -/
structure EditorState where
  cursor_row : Nat
  cursor_col : Nat
  row_offset : Nat
  col_offset : Nat
  screen_rows : Nat
  screen_cols : Nat
  rows : List EditorRow
  file_name : List Char
deriving DecidableEq, Repr

/-- `enum Direction` -/
inductive Direction where
  | Up
  | Down
  | Left
  | Right
deriving DecidableEq, Repr

/-- `row.map_or(0, |row| row.text_render.len())`: the rendered length of
row `i`, zero when `i` is out of bounds (in particular for the virtual
past-end row). -/
def rowLen (rows : List EditorRow) (i : Nat) : Nat :=
  (rows[i]?.map (fun r => r.text_render.length)).getD 0

/-- The `match direction` block of `EditorState::move_cursor`, before the
final clamp.  In the `Left` branch the source indexes
`self.rows[self.cursor_row]` after the decrement, which is in bounds
whenever `cursor_row ≤ rows.length` held before (the invariant below);
`rowLen` coincides with that panicking index there. -/
def moveCursorRaw (s : EditorState) (direction : Direction) : EditorState :=
  match direction with
  | .Left =>
    if s.cursor_col ≠ 0 then
      { s with cursor_col := s.cursor_col - 1 }
    else if s.cursor_row > 0 then
      { s with cursor_row := s.cursor_row - 1,
               cursor_col := rowLen s.rows (s.cursor_row - 1) }
    else s
  | .Right =>
    match s.rows[s.cursor_row]? with
    | some row =>
      if s.cursor_col < row.text_render.length then
        { s with cursor_col := s.cursor_col + 1 }
      else if s.cursor_col = row.text_render.length then
        { s with cursor_row := s.cursor_row + 1, cursor_col := 0 }
      else s
    | none => s
  | .Up =>
    if s.cursor_row ≠ 0 then { s with cursor_row := s.cursor_row - 1 } else s
  | .Down =>
    if s.cursor_row < s.rows.length then
      { s with cursor_row := s.cursor_row + 1 }
    else s

/-- The trailing clamp of `EditorState::move_cursor`: re-read the row at
the (possibly moved) cursor and cap `cursor_col` at its rendered length
(0 past the end). -/
def clampCol (s : EditorState) : EditorState :=
  let row_length := rowLen s.rows s.cursor_row
  if s.cursor_col > row_length then { s with cursor_col := row_length } else s

/-- `EditorState::move_cursor`: the direction step followed by the column
clamp. -/
def moveCursor (s : EditorState) (direction : Direction) : EditorState :=
  clampCol (moveCursorRaw s direction)

/-- `EditorState::init` (cursor and offsets zeroed, dimensions from the
terminal-size query, no rows, empty file name) followed by `load_file`
filling `rows`; generalised to an arbitrary list of rows. -/
def initialState (rows : List EditorRow) (sr sc : Nat) : EditorState :=
  { cursor_row := 0, cursor_col := 0, row_offset := 0, col_offset := 0,
    screen_rows := sr, screen_cols := sc, rows := rows, file_name := [] }

theorem moveCursorRaw_rows (s : EditorState) (d : Direction) :
    (moveCursorRaw s d).rows = s.rows := by
  cases d with
  | Left => simp only [moveCursorRaw]; split_ifs <;> rfl
  | Right =>
    simp only [moveCursorRaw]
    split
    · split_ifs <;> rfl
    · rfl
  | Up => simp only [moveCursorRaw]; split_ifs <;> rfl
  | Down => simp only [moveCursorRaw]; split_ifs <;> rfl

theorem clampCol_rows (s : EditorState) : (clampCol s).rows = s.rows := by
  simp only [clampCol]; split <;> rfl

theorem clampCol_cursor_row (s : EditorState) :
    (clampCol s).cursor_row = s.cursor_row := by
  simp only [clampCol]; split <;> rfl

theorem clampCol_cursor_col_le (s : EditorState) :
    (clampCol s).cursor_col ≤ rowLen s.rows s.cursor_row := by
  simp only [clampCol]
  split
  · exact Nat.le_refl _
  · omega

theorem moveCursorRaw_row_le (s : EditorState) (d : Direction)
    (h : s.cursor_row ≤ s.rows.length) :
    (moveCursorRaw s d).cursor_row ≤ s.rows.length := by
  cases d with
  | Left =>
    simp only [moveCursorRaw]
    split_ifs
    · exact h
    · show s.cursor_row - 1 ≤ _; omega
    · exact h
  | Right =>
    simp only [moveCursorRaw]
    split
    · rename_i x row heq
      have hb : s.cursor_row < s.rows.length :=
        (List.getElem?_eq_some.mp heq).1
      split_ifs
      · exact h
      · show s.cursor_row + 1 ≤ _; omega
      · exact h
    · exact h
  | Up =>
    simp only [moveCursorRaw]
    split_ifs
    · show s.cursor_row - 1 ≤ _; omega
    · exact h
  | Down =>
    simp only [moveCursorRaw]
    split_ifs with hb
    · show s.cursor_row + 1 ≤ _; omega
    · exact h

theorem moveCursor_inv (s : EditorState) (d : Direction)
    (h : s.cursor_row ≤ s.rows.length) :
    (moveCursor s d).cursor_row ≤ (moveCursor s d).rows.length ∧
    (moveCursor s d).cursor_col
      ≤ rowLen (moveCursor s d).rows (moveCursor s d).cursor_row := by
  unfold moveCursor
  have hcol := clampCol_cursor_col_le (moveCursorRaw s d)
  rw [clampCol_rows, clampCol_cursor_row]
  refine ⟨?_, hcol⟩
  rw [moveCursorRaw_rows]
  exact moveCursorRaw_row_le s d h

theorem foldl_moveCursor_inv (ds : List Direction) :
    ∀ s : EditorState,
      s.cursor_row ≤ s.rows.length →
      s.cursor_col ≤ rowLen s.rows s.cursor_row →
      (List.foldl moveCursor s ds).cursor_row
        ≤ (List.foldl moveCursor s ds).rows.length ∧
      (List.foldl moveCursor s ds).cursor_col
        ≤ rowLen (List.foldl moveCursor s ds).rows
            (List.foldl moveCursor s ds).cursor_row := by
  induction ds with
  | nil => intro s h1 h2; exact ⟨h1, h2⟩
  | cons d rest ih =>
    intro s h1 h2
    have hm := moveCursor_inv s d h1
    simpa using ih (moveCursor s d) hm.1 hm.2

/-- Claim C3.  Starting from cursor (0,0) on any document (screen
dimensions arbitrary, as the cursor navigator never reads them), any
finite sequence of Up/Down/Left/Right moves leaves the cursor with
`cursor_row ≤ document.length` and `cursor_col ≤` the rendered length of
the row it sits on, the virtual past-end row having rendered length 0
(`rowLen` out of bounds).  The lower bounds `0 ≤ cursor_row`,
`0 ≤ cursor_col` are automatic in the `Nat` model. -/
theorem c3_cursor_clamp_invariant (rows : List EditorRow) (sr sc : Nat)
    (ds : List Direction) :
    (List.foldl moveCursor (initialState rows sr sc) ds).cursor_row
      ≤ (List.foldl moveCursor (initialState rows sr sc) ds).rows.length ∧
    (List.foldl moveCursor (initialState rows sr sc) ds).cursor_col
      ≤ rowLen (List.foldl moveCursor (initialState rows sr sc) ds).rows
          (List.foldl moveCursor (initialState rows sr sc) ds).cursor_row :=
  foldl_moveCursor_inv ds (initialState rows sr sc)
    (Nat.zero_le _) (Nat.zero_le _)

theorem rowLen_of_getElem (rows : List EditorRow) (i : Nat)
    (h : i < rows.length) :
    rowLen rows i = rows[i].text_render.length := by
  simp [rowLen, List.getElem?_eq_getElem h]

theorem rowLen_past_end (rows : List EditorRow) (i : Nat)
    (h : rows.length ≤ i) : rowLen rows i = 0 := by
  simp [rowLen, List.getElem?_eq_none h]

/-- A one-row document `["a"]` with the cursor at the end of the final
real row (row 0, col 1 = rendered length). -/
def c4state : EditorState :=
  { cursor_row := 0, cursor_col := 1, row_offset := 0, col_offset := 0,
    screen_rows := 5, screen_cols := 5, rows := [rowFrom ['a']],
    file_name := [] }

/-- The same document with the cursor at document start (0,0). -/
def c4state0 : EditorState :=
  { c4state with cursor_col := 0 }

/-- The same document with the cursor on the virtual past-end row (1,0). -/
def c4stateV : EditorState :=
  { c4state with cursor_row := 1, cursor_col := 0 }

/-- Claim C4 counterexample.  With document `["a"]` and the cursor at the
end of the final real row (0,1), `move(Right)` is not a no-op: the code's
guard is only that the *current* row exists, so it advances to the virtual
past-end row (1,0). -/
theorem c4_counterexample :
    c4state.cursor_row + 1 = c4state.rows.length ∧
    c4state.cursor_col = rowLen c4state.rows c4state.cursor_row ∧
    moveCursor c4state .Right ≠ c4state ∧
    moveCursor c4state .Right = c4stateV := by
  decide

/-- Claim C4 (amended).  `move(Left)` at (0,0) leaves the cursor
unchanged; `move(Right)` at the end of the final real row moves the
cursor to the start of the virtual past-end row `(document.length, 0)`;
`move(Right)` at the virtual past-end row `(document.length, 0)` leaves
the cursor unchanged. -/
theorem c4_boundary_amended :
    (∀ s : EditorState, s.cursor_row = 0 → s.cursor_col = 0 →
      moveCursor s .Left = s) ∧
    (∀ s : EditorState, s.cursor_row + 1 = s.rows.length →
      s.cursor_col = rowLen s.rows s.cursor_row →
      (moveCursor s .Right).cursor_row = s.rows.length ∧
      (moveCursor s .Right).cursor_col = 0) ∧
    (∀ s : EditorState, s.cursor_row = s.rows.length → s.cursor_col = 0 →
      moveCursor s .Right = s) := by
  refine ⟨?_, ?_, ?_⟩
  · intro s h1 h2
    simp [moveCursor, moveCursorRaw, clampCol, h1, h2]
  · intro s h1 h2
    have hb : s.cursor_row < s.rows.length := by omega
    have hg : s.rows[s.cursor_row]? = some s.rows[s.cursor_row] :=
      List.getElem?_eq_getElem hb
    rw [rowLen_of_getElem s.rows s.cursor_row hb] at h2
    unfold moveCursor moveCursorRaw
    rw [hg]
    simp only
    rw [if_neg (by omega), if_pos h2]
    unfold clampCol
    simp only
    rw [if_neg (by omega)]
    exact ⟨by simpa using h1, rfl⟩
  · intro s h1 h2
    have hg : s.rows[s.cursor_row]? = none :=
      List.getElem?_eq_none (Nat.le_of_eq h1.symm)
    unfold moveCursor moveCursorRaw
    rw [hg]
    simp only
    unfold clampCol
    simp only
    rw [if_neg (by omega)]

/-- Claim C4 witness: the amended theorem applied to the concrete one-row
document `["a"]` at each of its three boundary situations. -/
theorem c4_boundary_witness :
    moveCursor c4state0 .Left = c4state0 ∧
    (moveCursor c4state .Right).cursor_row = c4state.rows.length ∧
    (moveCursor c4state .Right).cursor_col = 0 ∧
    moveCursor c4stateV .Right = c4stateV := by
  refine ⟨c4_boundary_amended.1 c4state0 rfl rfl,
    (c4_boundary_amended.2.1 c4state (by decide) (by decide)).1,
    (c4_boundary_amended.2.1 c4state (by decide) (by decide)).2,
    c4_boundary_amended.2.2 c4stateV (by decide) rfl⟩

/-- `EditorState::scroll`: the four independent clamps, in source order
(rows rule 1, rows rule 2, cols rule 1, cols rule 2).  The subtraction
`cursor - screen + 1` is exact because its guard gives
`cursor ≥ offset + screen ≥ screen`. -/
def scroll (s : EditorState) : EditorState :=
  let s1 :=
    if s.cursor_row < s.row_offset then
      { s with row_offset := s.cursor_row }
    else s
  let s2 :=
    if s1.cursor_row ≥ s1.row_offset + s1.screen_rows then
      { s1 with row_offset := s1.cursor_row - s1.screen_rows + 1 }
    else s1
  let s3 :=
    if s2.cursor_col < s2.col_offset then
      { s2 with col_offset := s2.cursor_col }
    else s2
  if s3.cursor_col ≥ s3.col_offset + s3.screen_cols then
    { s3 with col_offset := s3.cursor_col - s3.screen_cols + 1 }
  else s3

theorem scroll_cursor_row (s : EditorState) :
    (scroll s).cursor_row = s.cursor_row := by
  simp only [scroll]
  split_ifs <;> rfl

theorem scroll_cursor_col (s : EditorState) :
    (scroll s).cursor_col = s.cursor_col := by
  simp only [scroll]
  split_ifs <;> rfl

theorem scroll_screen_rows (s : EditorState) :
    (scroll s).screen_rows = s.screen_rows := by
  simp only [scroll]
  split_ifs <;> rfl

theorem scroll_screen_cols (s : EditorState) :
    (scroll s).screen_cols = s.screen_cols := by
  simp only [scroll]
  split_ifs <;> rfl

theorem scroll_rows (s : EditorState) : (scroll s).rows = s.rows := by
  simp only [scroll]
  split_ifs <;> rfl

theorem scroll_file_name (s : EditorState) :
    (scroll s).file_name = s.file_name := by
  simp only [scroll]
  split_ifs <;> rfl

theorem scroll_row_offset_eq (s : EditorState) :
    (scroll s).row_offset =
      if s.cursor_row < s.row_offset then
        if s.cursor_row ≥ s.cursor_row + s.screen_rows then
          s.cursor_row - s.screen_rows + 1
        else s.cursor_row
      else
        if s.cursor_row ≥ s.row_offset + s.screen_rows then
          s.cursor_row - s.screen_rows + 1
        else s.row_offset := by
  simp only [scroll]
  split_ifs <;> simp_all

theorem scroll_col_offset_eq (s : EditorState) :
    (scroll s).col_offset =
      if s.cursor_col < s.col_offset then
        if s.cursor_col ≥ s.cursor_col + s.screen_cols then
          s.cursor_col - s.screen_cols + 1
        else s.cursor_col
      else
        if s.cursor_col ≥ s.col_offset + s.screen_cols then
          s.cursor_col - s.screen_cols + 1
        else s.col_offset := by
  simp only [scroll]
  split_ifs <;> simp_all

theorem scroll_row_bracket (s : EditorState) (h : 1 ≤ s.screen_rows) :
    (scroll s).row_offset ≤ s.cursor_row ∧
    s.cursor_row < (scroll s).row_offset + s.screen_rows := by
  rw [scroll_row_offset_eq]
  split_ifs <;> omega

theorem scroll_col_bracket (s : EditorState) (h : 1 ≤ s.screen_cols) :
    (scroll s).col_offset ≤ s.cursor_col ∧
    s.cursor_col < (scroll s).col_offset + s.screen_cols := by
  rw [scroll_col_offset_eq]
  split_ifs <;> omega

/-- Claim C2.  After `scroll`, with screen dimensions at least 1, the
cursor lies inside the viewport window in both axes
(`row_offset ≤ cursor_row < row_offset + screen_rows` and likewise for
columns); offsets are `Nat`, hence non-negative; and in the concrete
claimed instance (`screen_cols = 5`, `cursor_col = 12`, starting
`col_offset ≤ 7`) the new `col_offset` is exactly 8. -/
theorem c2_scroll_invariant (s : EditorState)
    (hr : 1 ≤ s.screen_rows) (hc : 1 ≤ s.screen_cols) :
    ((scroll s).row_offset ≤ (scroll s).cursor_row ∧
      (scroll s).cursor_row < (scroll s).row_offset + (scroll s).screen_rows) ∧
    ((scroll s).col_offset ≤ (scroll s).cursor_col ∧
      (scroll s).cursor_col < (scroll s).col_offset + (scroll s).screen_cols) ∧
    (0 ≤ (scroll s).row_offset ∧ 0 ≤ (scroll s).col_offset) ∧
    (s.screen_cols = 5 → s.cursor_col = 12 → s.col_offset ≤ 7 →
      (scroll s).col_offset = 8) := by
  rw [scroll_cursor_row, scroll_cursor_col, scroll_screen_rows,
    scroll_screen_cols]
  refine ⟨scroll_row_bracket s hr, scroll_col_bracket s hc,
    ⟨Nat.zero_le _, Nat.zero_le _⟩, ?_⟩
  intro h5 h12 h7
  rw [scroll_col_offset_eq, h5, h12]
  split_ifs <;> omega

/-- Claim C2 witness: a concrete 1×5 screen with the cursor at column 12
on row 0 and `col_offset = 7`; after `scroll` the offset is 8 and the
cursor is inside the window. -/
theorem c2_scroll_invariant_witness :
    ((scroll (
        { cursor_row := 0, cursor_col := 12, row_offset := 0,
          col_offset := 7, screen_rows := 1, screen_cols := 5, rows := [],
          file_name := [] } : EditorState)).col_offset = 8) ∧
    ((scroll (
        { cursor_row := 0, cursor_col := 12, row_offset := 0,
          col_offset := 7, screen_rows := 1, screen_cols := 5, rows := [],
          file_name := [] } : EditorState)).col_offset ≤ 12 ∧
      (12 : Nat) < (scroll (
        { cursor_row := 0, cursor_col := 12, row_offset := 0,
          col_offset := 7, screen_rows := 1, screen_cols := 5, rows := [],
          file_name := [] } : EditorState)).col_offset + 5) := by
  have h := c2_scroll_invariant
    ({ cursor_row := 0, cursor_col := 12, row_offset := 0, col_offset := 7,
       screen_rows := 1, screen_cols := 5, rows := [], file_name := [] })
    (by decide) (by decide)
  exact ⟨h.2.2.2 rfl rfl (by decide), by simpa using h.2.1⟩

/-- Claim C10.  `scroll` writes only `row_offset` and `col_offset`: the
cursor, the screen dimensions, the document rows and the file name are
all returned unchanged. -/
theorem c10_scroll_frame (s : EditorState) :
    (scroll s).cursor_row = s.cursor_row ∧
    (scroll s).cursor_col = s.cursor_col ∧
    (scroll s).screen_rows = s.screen_rows ∧
    (scroll s).screen_cols = s.screen_cols ∧
    (scroll s).rows = s.rows ∧
    (scroll s).file_name = s.file_name :=
  ⟨scroll_cursor_row s, scroll_cursor_col s, scroll_screen_rows s,
    scroll_screen_cols s, scroll_rows s, scroll_file_name s⟩

/-- The pure core of `EditorState::refresh_screen`: recompute the scroll
offsets, then compute the physical cell passed to
`MoveTo(cursor_col - col_offset, cursor_row - row_offset)` (the drawing
and cursor-visibility effects carry no further state). -/
def refreshScreen (s : EditorState) : EditorState × Nat × Nat :=
  let s' := scroll s
  (s', s'.cursor_col - s'.col_offset, s'.cursor_row - s'.row_offset)

/-- Claim C9.  For a state satisfying the cursor invariant with a screen
of at least 1×1, after `scroll` has run inside `refresh_screen` the two
subtractions used for `MoveTo` cannot underflow:
`col_offset ≤ cursor_col` and `row_offset ≤ cursor_row` hold in the
scrolled state. -/
theorem c9_no_underflow (s : EditorState)
    (_hinv1 : s.cursor_row ≤ s.rows.length)
    (_hinv2 : s.cursor_col ≤ rowLen s.rows s.cursor_row)
    (hr : 1 ≤ s.screen_rows) (hc : 1 ≤ s.screen_cols) :
    (refreshScreen s).1.col_offset ≤ (refreshScreen s).1.cursor_col ∧
    (refreshScreen s).1.row_offset ≤ (refreshScreen s).1.cursor_row := by
  unfold refreshScreen
  simp only
  rw [scroll_cursor_row, scroll_cursor_col]
  exact ⟨(scroll_col_bracket s hc).1, (scroll_row_bracket s hr).1⟩

/-- Claim C9 witness: the empty document on a 1×1 screen satisfies the
cursor invariant, and after `refresh_screen`'s scroll both offsets are
at most the cursor coordinates. -/
theorem c9_no_underflow_witness :
    (refreshScreen (initialState [] 1 1)).1.col_offset
      ≤ (refreshScreen (initialState [] 1 1)).1.cursor_col ∧
    (refreshScreen (initialState [] 1 1)).1.row_offset
      ≤ (refreshScreen (initialState [] 1 1)).1.cursor_row :=
  c9_no_underflow (initialState [] 1 1) (by decide) (by decide)
    (by decide) (by decide)

/-- Default row used to totalise the source's panicking index
`self.rows[file_row]`; `draw_rows` only reaches it under the bounds
check `file_row < rows.len()`, where the two coincide. -/
def emptyRow : EditorRow :=
  { text_raw := [], text_render := [] }

/-- The text written for one screen row by `EditorState::draw_rows`
(the clear-line effect and the trailing `\r\n` separators carry no
text content): past the document it is the filler `"~"`, otherwise the
slice `text_render[col_offset .. col_offset + len]` with
`len = min(text_render.len() - col_offset, screen_cols)` when the row
reaches `col_offset`, and the empty string otherwise. -/
def rowText (s : EditorState) (row_num : Nat) : List Char :=
  let file_row := row_num + s.row_offset
  if s.rows.length ≤ file_row then ['~']
  else
    let text_render := (s.rows.getD file_row emptyRow).text_render
    if s.col_offset < text_render.length then
      let len0 := text_render.length - s.col_offset
      let len := if len0 > s.screen_cols then s.screen_cols else len0
      (text_render.drop s.col_offset).take len
    else []

/-- `EditorState::draw_rows`: one `rowText` per screen row
`0, 1, …, screen_rows - 1`. -/
def drawRows (s : EditorState) : List (List Char) :=
  (List.range s.screen_rows).map (rowText s)

/-- Modelled from the spec (§4.4 `visible_slice`): the substring of the
row's rendered sequence falling within
`[col_offset, col_offset + screen_cols)`. -/
def visibleSlice (s : EditorState) (file_row : Nat) : List Char :=
  ((s.rows.getD file_row emptyRow).text_render.drop s.col_offset).take
    s.screen_cols

theorem rowText_eq_slice (s : EditorState) (r : Nat) :
    rowText s r =
      if s.rows.length ≤ r + s.row_offset then ['~']
      else visibleSlice s (r + s.row_offset) := by
  simp only [rowText, visibleSlice]
  split_ifs with h1 h2 h3
  · rfl
  · rfl
  · -- the row reaches `col_offset` and is not cut by `screen_cols`:
    -- both takes keep the whole dropped suffix
    set l := (s.rows.getD (r + s.row_offset) emptyRow).text_render with hl
    have hdrop : (l.drop s.col_offset).length = l.length - s.col_offset :=
      List.length_drop _ _
    rw [List.take_of_length_le (by omega), List.take_of_length_le (by omega)]
  · -- the row does not reach `col_offset`: both sides are empty
    have hnil : (s.rows.getD (r + s.row_offset) emptyRow).text_render.drop
        s.col_offset = [] := by
      apply List.drop_eq_nil_of_le
      omega
    rw [hnil, List.take_nil]

/-- Claim C6.  For every screen row `r < screen_rows`, the frame's text
for `r` is the filler `"~"` when `r + row_offset` is past the document,
and is exactly the window `[col_offset, col_offset + screen_cols)` of
that row's rendered text otherwise; in particular it is empty when the
rendered length does not exceed `col_offset`. -/
theorem c6_visible_slice (s : EditorState) (r : Nat)
    (h : r < s.screen_rows) :
    (drawRows s)[r]? =
      some (if s.rows.length ≤ r + s.row_offset then ['~']
        else visibleSlice s (r + s.row_offset)) ∧
    ((s.rows.getD (r + s.row_offset) emptyRow).text_render.length
        ≤ s.col_offset →
      visibleSlice s (r + s.row_offset) = []) := by
  constructor
  · rw [drawRows, List.getElem?_map, List.getElem?_range h, Option.map_some',
      rowText_eq_slice]
  · intro hshort
    unfold visibleSlice
    rw [List.drop_eq_nil_of_le hshort, List.take_nil]

/-- Claim C6 witness: on the one-row document `["a"]` with a 1×5 screen
and zero offsets, screen row 0 shows the slice of row 0. -/
theorem c6_visible_slice_witness :
    (drawRows (initialState [rowFrom ['a']] 1 5))[0]? =
      some (if (initialState [rowFrom ['a']] 1 5).rows.length
            ≤ 0 + (initialState [rowFrom ['a']] 1 5).row_offset then ['~']
        else visibleSlice (initialState [rowFrom ['a']] 1 5)
          (0 + (initialState [rowFrom ['a']] 1 5).row_offset)) :=
  (c6_visible_slice (initialState [rowFrom ['a']] 1 5) 0 (by decide)).1

/-- The key codes `handle_keypress` distinguishes; every other
`crossterm` key code falls into the source's `_ => {}` arm, collapsed
into `Other`. -/
inductive KeyCode where
  | Left
  | Right
  | Up
  | Down
  | Esc
  | Other
deriving DecidableEq, Repr

/-- The event classes of the source's `match event`: a resize with the
terminal-reported `(columns, rows)`, a key press, or a mouse event. -/
inductive Event where
  | Resize (columns rows : Nat)
  | Key (key : KeyCode)
  | Mouse
deriving DecidableEq, Repr

/-- `EditorState::handle_keypress`.  `Esc` runs `cleanup(); exit(0)`,
modelled as `none` (the session ends); all other arms return the next
state. -/
def handleKeypress (s : EditorState) (key : KeyCode) : Option EditorState :=
  match key with
  | .Left => some (moveCursor s .Left)
  | .Right => some (moveCursor s .Right)
  | .Up => some (moveCursor s .Up)
  | .Down => some (moveCursor s .Down)
  | .Esc => none
  | .Other => some s

/-- The event dispatch of one `event_loop` iteration (after
`refresh_screen`, which does not read the dimension fields being
written here): a resize stores `columns + 1` and `rows + 1` — the
source's `+ 1`s carry the comment "I have no idea why these plus 1s are
need but they are" — keys go to `handle_keypress`, mouse events are
ignored. -/
def eventLoopStep (s : EditorState) (e : Event) : Option EditorState :=
  match e with
  | .Resize columns rows =>
    some { s with screen_cols := columns + 1, screen_rows := rows + 1 }
  | .Key key => handleKeypress s key
  | .Mouse => some s

/-- Claim C7 counterexample.  Processing a resize event reporting
(80, 24) does not store 80 and 24: the code stores 81 and 25. -/
theorem c7_counterexample :
    (eventLoopStep (initialState [] 24 80) (.Resize 80 24)).map
      EditorState.screen_cols ≠ some 80 ∧
    (eventLoopStep (initialState [] 24 80) (.Resize 80 24)).map
      EditorState.screen_cols = some 81 ∧
    (eventLoopStep (initialState [] 24 80) (.Resize 80 24)).map
      EditorState.screen_rows = some 25 := by
  decide

/-- Claim C7 (amended).  Processing a resize event reporting
`(columns, rows)` stores `columns + 1` in `screen_cols` and `rows + 1`
in `screen_rows` (the source's deliberate, commented `+ 1` adjustment),
leaving every other field unchanged. -/
theorem c7_resize_amended (s : EditorState) (columns rows : Nat) :
    eventLoopStep s (.Resize columns rows) =
      some { s with screen_cols := columns + 1, screen_rows := rows + 1 } :=
  rfl
